import Mathlib

/-!
Verification development for the Polaris expression language
(tokenizer, recursive-descent parser, AST evaluator, transform algebra,
matcher resolver).  The definitions below are a shallow embedding of the
Python sources; numeric semantics are idealized to exact arithmetic
(`ℚ` for the literal / arithmetic layer, `ℝ` for the trigonometric
transform layer).
-/

namespace Polaris

/-! ## Transform algebra (src/transform.py) -/

/-- 2D rigid-body pose, `src/transform.py` class `Transform`:
fields `x`, `y`, `theta`. -/
structure Transform where
  x : ℝ
  y : ℝ
  theta : ℝ

/-- `Transform.from_translation(x, y)` — pure translation. -/
def Transform.from_translation (x y : ℝ) : Transform := ⟨x, y, 0⟩

/-- `Transform.from_rotation(theta)` — pure rotation. -/
def Transform.from_rotation (theta : ℝ) : Transform := ⟨0, 0, theta⟩

/-- The identity transform `Transform(0, 0, 0)`. -/
def Transform.identity : Transform := ⟨0, 0, 0⟩

/-- `Transform.__matmul__(self, transform)` from `src/transform.py`:
the RHS transform happens first, then the LHS transform. -/
noncomputable def Transform.matmul (self transform : Transform) : Transform :=
  let s := Real.sin transform.theta
  let c := Real.cos transform.theta
  ⟨transform.x     + c * self.x - s * self.y,
   transform.y     + s * self.x + c * self.y,
   transform.theta + self.theta⟩

/-- The historical `Transform` class of `src/polaris_action.py`
(fields `x`, `y`, `theta`), kept distinct from the evolved class. -/
structure PATransform where
  x : ℝ
  y : ℝ
  theta : ℝ

/-- `Transform.__mul__(self, transform)` from `src/polaris_action.py`:
`s`/`c` are taken from `self.theta` (the LHS). -/
noncomputable def PATransform.mul (self transform : PATransform) : PATransform :=
  let s := Real.sin self.theta
  let c := Real.cos self.theta
  ⟨self.x     + c * transform.x - s * transform.y,
   self.y     + s * transform.x + c * transform.y,
   self.theta + transform.theta⟩

/-! ## Lexer (src/parser.py `tokenize`, src/polaris_action.py `tokenize`)

Both tokenizers are one `re.finditer` scan over an alternation of named
groups tried in order (NUMBER, ID, OP, LEFT, RIGHT, COMMA, [COLON,]
WHITESPACE, ERROR).  The group start sets are disjoint, so the scan is a
deterministic longest-match dispatch on the first character; the greedy
sub-parts of the NUMBER group are reproduced exactly below. -/

/-- Token kinds shared by both tokenizers (COLON exists only in the
evolved `src/parser.py` table; the old table turns `:` into ERROR). -/
inductive TokenKind where
  | NUMBER | ID | OP | LEFT | RIGHT | COMMA | COLON | WHITESPACE | ERROR
  deriving DecidableEq, Repr

/-- A raw token: kind plus matched lexeme, as yielded by
`src/parser.py` `tokenize`. -/
abbrev Tok := TokenKind × String

/-- Python `\s` on the ASCII range (space, tab, newline, return,
vertical tab, form feed). -/
def isPySpace (c : Char) : Bool :=
  c = ' ' || c = '\t' || c = '\n' || c = '\r' || c = '\x0b' || c = '\x0c'

/-- Python `\w` restricted to ASCII: letters, digits, underscore. -/
def isWordChar (c : Char) : Bool :=
  c.isAlpha || c.isDigit || c = '_'

/-- The character class `[\d_]` used inside the NUMBER group. -/
def digitOrUnderscore (c : Char) : Bool :=
  c.isDigit || c = '_'

/-- Split off the maximal run of `[\d_]*`. -/
def splitDigits (cs : List Char) : List Char × List Char :=
  (cs.takeWhile digitOrUnderscore, cs.dropWhile digitOrUnderscore)

/-- The optional fraction part `(\.\d[\d_]*)?` of the NUMBER regex:
consumed only when a `.` is immediately followed by a digit. -/
def numFrac : List Char → List Char × List Char
  | '.' :: c :: rest =>
    if c.isDigit then
      let (t, r) := splitDigits rest
      ('.' :: c :: t, r)
    else ([], '.' :: c :: rest)
  | cs => ([], cs)

/-- The optional exponent part `([eE][+\-]?\d[\d_]*)?` of the NUMBER
regex: consumed only when `e`/`E` (with optional sign) is followed by a
digit. -/
def numExp : List Char → List Char × List Char
  | e :: '+' :: c :: rest =>
    if (e = 'e' || e = 'E') && c.isDigit then
      let (t, r) := splitDigits rest
      (e :: '+' :: c :: t, r)
    else ([], e :: '+' :: c :: rest)
  | e :: '-' :: c :: rest =>
    if (e = 'e' || e = 'E') && c.isDigit then
      let (t, r) := splitDigits rest
      (e :: '-' :: c :: t, r)
    else ([], e :: '-' :: c :: rest)
  | e :: c :: rest =>
    if (e = 'e' || e = 'E') && c.isDigit then
      let (t, r) := splitDigits rest
      (e :: c :: t, r)
    else ([], e :: c :: rest)
  | cs => ([], cs)

/-- Everything the NUMBER group matches after its mandatory leading
digit: `[\d_]*` then the optional fraction, then the optional
exponent.  Returns (consumed, rest). -/
def numTail (cs : List Char) : List Char × List Char :=
  let (a, r1) := splitDigits cs
  let (b, r2) := numFrac r1
  let (c, r3) := numExp r2
  (a ++ b ++ c, r3)

/-- Whether a whole string is matched by the NUMBER token regex
`\d[\d_]*(\.\d[\d_]*)?([eE][+\-]?\d[\d_]*)?`. -/
def numberFullMatch (s : String) : Bool :=
  match s.toList with
  | c :: rest => c.isDigit && (numTail rest).2.isEmpty
  | [] => false

/-- One step of the scan: classify the token starting at `c` (with the
remaining characters `cs`), following the priority / greediness of the
regex alternation.  `allowAt`/`allowColon` distinguish the evolved
table (`src/parser.py`: OP includes `@`, `:` is COLON) from the old one
(`src/polaris_action.py`: `@` and `:` fall through to ERROR). -/
def scanOne (allowAt allowColon : Bool) (c : Char) (cs : List Char) :
    Tok × List Char :=
  if c.isDigit then
    let (t, r) := numTail cs
    ((TokenKind.NUMBER, String.mk (c :: t)), r)
  else if c.isAlpha then
    ((TokenKind.ID, String.mk (c :: cs.takeWhile isWordChar)),
      cs.dropWhile isWordChar)
  else if c = '+' || c = '-' || c = '*' || c = '/' then
    ((TokenKind.OP, String.mk [c]), cs)
  else if c = '@' then
    (if allowAt then ((TokenKind.OP, "@"), cs) else ((TokenKind.ERROR, "@"), cs))
  else if c = '(' then ((TokenKind.LEFT, "("), cs)
  else if c = ')' then ((TokenKind.RIGHT, ")"), cs)
  else if c = ',' then ((TokenKind.COMMA, ","), cs)
  else if c = ':' then
    (if allowColon then ((TokenKind.COLON, ":"), cs)
     else ((TokenKind.ERROR, ":"), cs))
  else if isPySpace c then
    ((TokenKind.WHITESPACE, String.mk (c :: cs.takeWhile isPySpace)),
      cs.dropWhile isPySpace)
  else ((TokenKind.ERROR, String.mk [c]), cs)

/-- The full scan.  Each step consumes at least one character, so fuel
equal to the input length makes the scan total; the fuel-0 branch is
unreachable when started that way. -/
def scanList (allowAt allowColon : Bool) : Nat → List Char → List Tok
  | _, [] => []
  | 0, _ :: _ => []
  | fuel + 1, c :: cs =>
    let (t, r) := scanOne allowAt allowColon c cs
    t :: scanList allowAt allowColon fuel r

/-- `tokenize(source)` of `src/parser.py`: the raw token stream,
WHITESPACE and ERROR tokens included. -/
def tokenize (source : String) : List Tok :=
  scanList true true source.toList.length source.toList

/-! ## Model of CPython `float()` on decimal literals

`src/parser.py` converts NUMBER lexemes with Python's `float`
(`Constant(float(value))`), and `src/polaris_action.py` does the same
inside its tokenizer.  Per PEP 515 a `float` literal may contain
underscores only *between* digits (`digitpart := digit (["_"] digit)*`),
so conversion of a regex-matched lexeme can fail (e.g. `"1_"`).
The value model is exact: the rational value of the decimal literal
(every value a claim mentions is exactly representable as a double). -/

/-- Consume a PEP-515 `digitpart` continuation `(("_")? digit)*`:
underscores must be immediately followed by a digit. -/
def pyDigitsRest : List Char → List Char
  | [] => []
  | [c] => if c.isDigit then [] else [c]
  | c :: d :: cs =>
    if c.isDigit then pyDigitsRest (d :: cs)
    else if c = '_' && d.isDigit then pyDigitsRest cs
    else c :: d :: cs

/-- The optional Python fraction `"." [digitpart]`. -/
def pyFrac : List Char → List Char
  | '.' :: rest =>
    match rest with
    | d :: rest' => if d.isDigit then pyDigitsRest rest' else rest
    | [] => []
  | cs => cs

/-- The optional Python exponent `("e"|"E") ["+"|"-"] digitpart`
(consumed only when complete; otherwise the stream is left alone and
full-match fails on the leftover). -/
def pyExp : List Char → List Char
  | e :: '+' :: d :: rest =>
    if (e = 'e' || e = 'E') && d.isDigit then pyDigitsRest rest
    else e :: '+' :: d :: rest
  | e :: '-' :: d :: rest =>
    if (e = 'e' || e = 'E') && d.isDigit then pyDigitsRest rest
    else e :: '-' :: d :: rest
  | e :: d :: rest =>
    if (e = 'e' || e = 'E') && d.isDigit then pyDigitsRest rest
    else e :: d :: rest
  | cs => cs

/-- Whether CPython `float(s)` accepts `s`, for the unsigned decimal
shapes the NUMBER class can produce
(`digitpart ["." [digitpart]] [exponent]`). -/
def pyFloatAccepts (s : String) : Bool :=
  match s.toList with
  | c :: rest => c.isDigit && (pyExp (pyFrac (pyDigitsRest rest))).isEmpty
  | [] => false

/-- Numeric value of a digit run (underscores already stripped). -/
def digitsVal (cs : List Char) : Nat :=
  cs.foldl (fun n c => 10 * n + (c.toNat - 48)) 0

/-- Exact rational value of an accepted literal: strip underscores,
split mantissa at `.`, apply the decimal exponent.  The arithmetic is
kept in `ℕ`/`ℤ` with one final cast (or one division for a negative
net exponent) so that the kernel can evaluate it. -/
def pyFloatVal (s : String) : ℚ :=
  let cs := s.toList.filter (fun c => !(c = '_'))
  let m := cs.takeWhile (fun c => !(c = 'e' || c = 'E'))
  let erest := cs.dropWhile (fun c => !(c = 'e' || c = 'E'))
  let ex : ℤ :=
    match erest with
    | _ :: '+' :: ds => (digitsVal ds : ℤ)
    | _ :: '-' :: ds => -(digitsVal ds : ℤ)
    | _ :: ds => (digitsVal ds : ℤ)
    | [] => 0
  let ip := m.takeWhile (fun c => !(c = '.'))
  let fp := (m.dropWhile (fun c => !(c = '.'))).drop 1
  let mant : ℕ := digitsVal (ip ++ fp)
  let e10 : ℤ := ex - fp.length
  if 0 ≤ e10 then ((mant * 10 ^ e10.toNat : ℕ) : ℚ)
  else (mant : ℚ) / ((10 ^ (-e10).toNat : ℕ) : ℚ)

/-- `float(value)` as used by the parsers: `some` exact value on
success, `none` when CPython raises `ValueError`. -/
def pyFloatOpt (s : String) : Option ℚ :=
  if pyFloatAccepts s then some (pyFloatVal s) else none

/-- Every underscore in the string is immediately followed by a digit
(the condition under which a regex-matched NUMBER lexeme is also a
valid PEP-515 literal). -/
def underscoresOk : List Char → Bool
  | [] => true
  | c :: cs =>
    (if c = '_' then
       match cs with
       | d :: _ => d.isDigit
       | [] => false
     else true) && underscoresOk cs

/-! ## AST and evaluator (src/source/ast.py) -/

/-- The AST node set of `src/source/ast.py` (`UnaryOp`, `BinaryOp`,
`FunctionCall`, `VariableRead`, `Constant`).  Operator tags are the
strings the parser stores; `Constant` carries the exact value the
parser's `float(value)` produced (the source field is dynamically
typed; the language only ever builds numeric constants). -/
inductive Expr where
  | UnaryOp (op : String) (rhs : Expr)
  | BinaryOp (lhs : Expr) (op : String) (rhs : Expr)
  | FunctionCall (name : String) (args : List Expr)
  | VariableRead (name : String)
  | Constant (value : ℚ)
  deriving Repr

/-- The runtime failure kinds of the engine (Python exceptions:
`RuntimeError` from `expect`/`parse_primative`/`evaluate`,
`ValueError` from `float`, `KeyError`/`AttributeError` from symbol
access, `ZeroDivisionError`, `TypeError` from operators, and the
resolver's duplicate-prefix failure). -/
inductive Err where
  | parseErr (expected : TokenKind) (found : String)
  | unexpectedToken (kind : TokenKind) (value : String)
  | popNone
  | peekNone
  | valueError (lexeme : String)
  | unboundName (name : String)
  | attributeError (name : String)
  | typeError (what : String)
  | zeroDivision
  | unhandledNode
  | arityError (name : String)
  | duplicatePrefixError (prefixes : List String)
  | fuelExhausted
  deriving DecidableEq, Repr

/-- A runtime value of the language: a number or a Transform
(spec section 4.3: "value is f64 or Transform"). -/
inductive Value where
  | num (q : ℚ)
  | pose (t : Transform)

/-- The native callables that can sit in a `Function` binding.
Modelled from the spec: the built-in binding code is not under `src/`;
section 4.3 fixes the seven built-ins (`deg`, `grad`, `rad`, `turn`,
`inch`, `mil`, `mm`), each evaluating its raw argument(s) itself and
constructing a Transform.  `evalArg` is the test callable of
`src/tests/test_ast.py` (`lambda s, a: ast.evaluate(s, a)`). -/
inductive NativeFn where
  | deg | grad | rad | turn | inch | mil | mm | evalArg
  deriving DecidableEq, Repr

/-- A symbol-table binding, `src/source/ast.py`: `Function(func)`
(native callable) or `Variable(value)` (pre-evaluated value). -/
inductive Statement where
  | Function (func : NativeFn)
  | Variable (value : Value)

/-- `SymbolTable` of `src/source/ast.py`: an optional enclosing scope
and a name-to-binding mapping (the Python `Dict` as an association
list with unique keys). -/
inductive SymbolTable where
  | mk (scope : Option SymbolTable) (table : List (String × Statement))

/-- Local bindings of a table. -/
def SymbolTable.table : SymbolTable → List (String × Statement)
  | ⟨_, t⟩ => t

/-- Enclosing scope of a table. -/
def SymbolTable.scope : SymbolTable → Option SymbolTable
  | ⟨s, _⟩ => s

/-- Modelled from the spec: the chained lookup `symbols[name]`
(spec section 3: "search local bindings first, then recurse to
`parent`; absence in the full chain is a lookup failure").  The
`__getitem__` realizing it is not under `src/`; `evaluate` only invokes
it as `symbols[name]`. -/
def SymbolTable.lookup : SymbolTable → String → Option Statement
  | ⟨none, table⟩, name => List.lookup name table
  | ⟨some p, table⟩, name =>
    match List.lookup name table with
    | some b => some b
    | none => SymbolTable.lookup p name

/-- Python unary `+` on a runtime value: identity on floats; a
`Transform` has no `__pos__`, so it is a `TypeError`. -/
def unaryPos : Value → Except Err Value
  | .num q => .ok (.num q)
  | .pose _ => .error (.typeError "unary plus on Transform")

/-- Python unary `-` on a runtime value: negation on floats; a
`Transform` has no `__neg__`, so it is a `TypeError`. -/
def unaryNeg : Value → Except Err Value
  | .num q => .ok (.num (-q))
  | .pose _ => .error (.typeError "unary minus on Transform")

/-- The binary operators as the duck-typed Python operators resolve on
the two runtime value kinds: `+ - * /` are float arithmetic (division
by zero raises), `@` is `Transform.__matmul__`; every other
combination raises `TypeError` (the evolved `Transform` defines only
`__matmul__`). -/
noncomputable def applyBinOp : String → Value → Value → Except Err Value
  | "+", .num a, .num b => .ok (.num (a + b))
  | "-", .num a, .num b => .ok (.num (a - b))
  | "*", .num a, .num b => .ok (.num (a * b))
  | "/", .num a, .num b =>
    if b = 0 then .error .zeroDivision else .ok (.num (a / b))
  | "@", .pose a, .pose b => .ok (.pose (Transform.matmul a b))
  | _, _, _ => .error (.typeError "binary operand types")

mutual

/-- `evaluate(symbols, tree)` of `src/source/ast.py`: dispatch on the
node shape; `FunctionCall` passes the raw argument ASTs to the bound
callable (`symbols[name].func(symbols, *args)`); `VariableRead` reads
`symbols[name].value`; an unknown node/operator raises (`case _`). -/
noncomputable def evaluate : SymbolTable → Expr → Except Err Value
  | s, .UnaryOp op rhs =>
    if op = "+" then
      match evaluate s rhs with
      | .ok v => unaryPos v
      | .error e => .error e
    else if op = "-" then
      match evaluate s rhs with
      | .ok v => unaryNeg v
      | .error e => .error e
    else .error .unhandledNode
  | s, .BinaryOp lhs op rhs =>
    if op = "+" || op = "-" || op = "*" || op = "@" || op = "/" then
      match evaluate s lhs with
      | .error e => .error e
      | .ok vl =>
        match evaluate s rhs with
        | .error e => .error e
        | .ok vr => applyBinOp op vl vr
    else .error .unhandledNode
  | s, .FunctionCall name args =>
    match s.lookup name with
    | some (.Function f) => applyNative f s args
    | some (.Variable _) => .error (.attributeError name)
    | none => .error (.unboundName name)
  | s, .VariableRead name =>
    match s.lookup name with
    | some (.Variable v) => .ok v
    | some (.Function _) => .error (.attributeError name)
    | none => .error (.unboundName name)
  | _, .Constant q => .ok (.num q)
termination_by _ e => 3 * sizeOf e

/-- The body of each native callable, invoked with the symbol table and
the *unevaluated* argument ASTs.  The seven built-ins are modelled from
the spec (section 4.3 table; scale factors as in
`src/polaris_action.py` `parse_transform`): each evaluates its raw
argument(s) itself, requires numbers, and builds a Transform.
`evalArg` is the test lambda, evaluating its single argument.
A wrong argument count is the Python arity `TypeError`. -/
noncomputable def applyNative : NativeFn → SymbolTable → List Expr → Except Err Value
  | .deg, s, [a] => (rotationOf s a (Real.pi / 180))
  | .grad, s, [a] => (rotationOf s a (Real.pi / 200))
  | .rad, s, [a] => (rotationOf s a 1)
  | .turn, s, [a] => (rotationOf s a (Real.pi * 2))
  | .inch, s, [ax, ay] => (translationOf s ax ay 25.4)
  | .mil, s, [ax, ay] => (translationOf s ax ay 0.0254)
  | .mm, s, [ax, ay] => (translationOf s ax ay 1)
  | .evalArg, s, [a] => evaluate s a
  | f, _, _ => .error (.arityError (toString (repr f)))
termination_by _ _ args => 3 * sizeOf args + 2

/-- Shared body of the rotation built-ins: evaluate the raw argument,
scale it, build `from_rotation`. -/
noncomputable def rotationOf (s : SymbolTable) (a : Expr) (scale : ℝ) :
    Except Err Value :=
  match evaluate s a with
  | .ok (.num q) => .ok (.pose (Transform.from_rotation ((q : ℝ) * scale)))
  | .ok (.pose _) => .error (.typeError "rotation argument")
  | .error e => .error e
termination_by 3 * sizeOf a + 1

/-- Shared body of the translation built-ins: evaluate the two raw
arguments left to right, scale them, build `from_translation`. -/
noncomputable def translationOf (s : SymbolTable) (ax ay : Expr) (scale : ℝ) :
    Except Err Value :=
  match evaluate s ax with
  | .ok (.num qx) =>
    match evaluate s ay with
    | .ok (.num qy) =>
      .ok (.pose (Transform.from_translation ((qx : ℝ) * scale) ((qy : ℝ) * scale)))
    | .ok (.pose _) => .error (.typeError "translation argument")
    | .error e => .error e
  | .ok (.pose _) => .error (.typeError "translation argument")
  | .error e => .error e
termination_by 3 * (sizeOf ax + sizeOf ay) + 1

end

/-! ## Parser (src/parser.py class `Parser`)

The `Tokens` cursor is a single-token lookahead over the stream; here
the stream is a list and peek/pop are head/uncons.  Each parse function
threads the remaining tokens and is given fuel (each recursive call
ticks it down; the recursion consumes tokens, so fuel proportional to
the token count suffices and the fuel-0 branch is unreachable from the
top-level wrappers).  `expect` on an exhausted stream is the Python
`TypeError` of unpacking `None` (modelled `popNone`); likewise
`peek()[0]` on an exhausted stream (`peekNone`), and `parse_primative`
popping `None` falls through every case of the Python `match` and
returns `None`, which faults in the caller — modelled as an immediate
failure. -/

/-- `Tokens.expect(token_name)`: pop, fail unless the kind matches. -/
def expectTok (k : TokenKind) (ts : List Tok) : Except Err (String × List Tok) :=
  match ts with
  | (k', v) :: rest =>
    if k' = k then .ok (v, rest) else .error (.parseErr k v)
  | [] => .error .popNone

mutual

/-- `Parser.parse_primative`: NUMBER (converted with `float`, which can
raise `ValueError`), parenthesized expression, identifier (function
call when followed by `(`, else variable read), otherwise an
unexpected-token failure. -/
def parsePrimative : Nat → List Tok → Except Err (Expr × List Tok)
  | 0, _ => .error .fuelExhausted
  | fuel + 1, ts =>
    match ts with
    | (TokenKind.NUMBER, v) :: rest =>
      match pyFloatOpt v with
      | some q => .ok (.Constant q, rest)
      | none => .error (.valueError v)
    | (TokenKind.LEFT, _) :: rest =>
      match parseExpression fuel rest with
      | .error e => .error e
      | .ok (e, r) =>
        match expectTok TokenKind.RIGHT r with
        | .error err => .error err
        | .ok (_, r') => .ok (e, r')
    | (TokenKind.ID, v) :: rest =>
      match rest with
      | (TokenKind.LEFT, _) :: _ =>
        match parseArguments fuel rest with
        | .error e => .error e
        | .ok (args, r) => .ok (.FunctionCall v args, r)
      | _ => .ok (.VariableRead v, rest)
    | (k, v) :: _ => .error (.unexpectedToken k v)
    | [] => .error .popNone

/-- `Parser.parse_arguments`: `expect('LEFT')`, then expressions
separated by commas until a RIGHT is peeked, then `expect('RIGHT')`. -/
def parseArguments : Nat → List Tok → Except Err (List Expr × List Tok)
  | 0, _ => .error .fuelExhausted
  | fuel + 1, ts =>
    match expectTok TokenKind.LEFT ts with
    | .error e => .error e
    | .ok (_, r) => parseArgsLoop fuel [] r

/-- The `while` body of `parse_arguments`. -/
def parseArgsLoop : Nat → List Expr → List Tok → Except Err (List Expr × List Tok)
  | 0, _, _ => .error .fuelExhausted
  | fuel + 1, acc, ts =>
    match ts with
    | [] => .error .peekNone
    | (TokenKind.RIGHT, _) :: _ =>
      match expectTok TokenKind.RIGHT ts with
      | .error e => .error e
      | .ok (_, r) => .ok (acc, r)
    | _ =>
      match parseExpression fuel ts with
      | .error e => .error e
      | .ok (e, r) =>
        match r with
        | (TokenKind.COMMA, _) :: r' => parseArgsLoop fuel (acc ++ [e]) r'
        | [] => .error .peekNone
        | _ =>
          match expectTok TokenKind.RIGHT r with
          | .error err => .error err
          | .ok (_, r') => .ok (acc ++ [e], r')

/-- `Parser.parse_factor`: an optional unary sign then a primative. -/
def parseFactor : Nat → List Tok → Except Err (Expr × List Tok)
  | 0, _ => .error .fuelExhausted
  | fuel + 1, ts =>
    match ts with
    | (TokenKind.OP, "+") :: rest =>
      match parsePrimative fuel rest with
      | .error e => .error e
      | .ok (e, r) => .ok (.UnaryOp "+" e, r)
    | (TokenKind.OP, "-") :: rest =>
      match parsePrimative fuel rest with
      | .error e => .error e
      | .ok (e, r) => .ok (.UnaryOp "-" e, r)
    | _ => parsePrimative fuel ts

/-- `Parser.parse_term`: a factor followed by `* / @` factors. -/
def parseTerm : Nat → List Tok → Except Err (Expr × List Tok)
  | 0, _ => .error .fuelExhausted
  | fuel + 1, ts =>
    match parseFactor fuel ts with
    | .error e => .error e
    | .ok (f, r) => parseTermLoop fuel f r

/-- The `while` loop of `parse_term` (left-associative accumulation). -/
def parseTermLoop : Nat → Expr → List Tok → Except Err (Expr × List Tok)
  | 0, _, _ => .error .fuelExhausted
  | fuel + 1, acc, ts =>
    match ts with
    | (TokenKind.OP, "*") :: rest =>
      match parseFactor fuel rest with
      | .error e => .error e
      | .ok (f, r) => parseTermLoop fuel (.BinaryOp acc "*" f) r
    | (TokenKind.OP, "/") :: rest =>
      match parseFactor fuel rest with
      | .error e => .error e
      | .ok (f, r) => parseTermLoop fuel (.BinaryOp acc "/" f) r
    | (TokenKind.OP, "@") :: rest =>
      match parseFactor fuel rest with
      | .error e => .error e
      | .ok (f, r) => parseTermLoop fuel (.BinaryOp acc "@" f) r
    | _ => .ok (acc, ts)

/-- `Parser.parse_expression`: a term followed by `+ -` terms. -/
def parseExpression : Nat → List Tok → Except Err (Expr × List Tok)
  | 0, _ => .error .fuelExhausted
  | fuel + 1, ts =>
    match parseTerm fuel ts with
    | .error e => .error e
    | .ok (t, r) => parseExprLoop fuel t r

/-- The `while` loop of `parse_expression` (left-associative). -/
def parseExprLoop : Nat → Expr → List Tok → Except Err (Expr × List Tok)
  | 0, _, _ => .error .fuelExhausted
  | fuel + 1, acc, ts =>
    match ts with
    | (TokenKind.OP, "+") :: rest =>
      match parseTerm fuel rest with
      | .error e => .error e
      | .ok (t, r) => parseExprLoop fuel (.BinaryOp acc "+" t) r
    | (TokenKind.OP, "-") :: rest =>
      match parseTerm fuel rest with
      | .error e => .error e
      | .ok (t, r) => parseExprLoop fuel (.BinaryOp acc "-" t) r
    | _ => .ok (acc, ts)

end

/-- `Matcher` of `src/parser.py`: a prefix string (source field
`prefix`, a Lean keyword, hence `pre` here) and an expression AST. -/
structure Matcher where
  pre : String
  expression : Expr

/-- The matcher loop of `parse_script`: until the stream is exhausted,
`expect('ID')`, `expect('COLON')`, `parse_expression`. -/
def scriptLoop : Nat → List Matcher → List Tok → Except Err (List Matcher)
  | 0, _, _ => .error .fuelExhausted
  | fuel + 1, acc, ts =>
    match ts with
    | [] => .ok acc
    | _ =>
      match expectTok TokenKind.ID ts with
      | .error e => .error e
      | .ok (p, r) =>
        match expectTok TokenKind.COLON r with
        | .error e => .error e
        | .ok (_, r') =>
          match parseExpression (8 * r'.length + 8) r' with
          | .error e => .error e
          | .ok (e, r'') => scriptLoop fuel (acc ++ [⟨p, e⟩]) r''

/-- `Parser.parse_script`: four pops compared (kind and lexeme) against
the literal header `ID("script") LEFT ID("polaris") RIGHT`; on any
mismatch the conjunction short-circuits and the empty matcher list is
returned with no error; on a match, the matcher loop runs to stream
exhaustion. -/
def parseScriptToks (ts : List Tok) : Except Err (List Matcher) :=
  match ts with
  | (TokenKind.ID, "script") :: (TokenKind.LEFT, "(") ::
      (TokenKind.ID, "polaris") :: (TokenKind.RIGHT, ")") :: rest =>
    scriptLoop (rest.length + 1) [] rest
  | _ => .ok []

/-- Modelled from the spec: the host glue feeding the `Parser` is not
under `src/` (only `tokenize` and the `Parser` class are); section 4.1
fixes that WHITESPACE is "dropped before the Parser ever sees it".
The token sequence the Parser consumes is the raw stream with
WHITESPACE tokens removed (ERROR tokens are kept: the Parser fails on
consuming one). -/
def parserTokens (source : String) : List Tok :=
  (tokenize source).filter (fun t => decide (t.1 ≠ TokenKind.WHITESPACE))

/-- Parse one expression from a source text (the per-entity expression
entry point). -/
def parseExpressionTop (source : String) : Except Err Expr :=
  match parseExpression (8 * (parserTokens source).length + 8)
      (parserTokens source) with
  | .error e => .error e
  | .ok (e, _) => .ok e

/-- Parse a whole script text. -/
def parseScriptStr (source : String) : Except Err (List Matcher) :=
  parseScriptToks (parserTokens source)

/-- Do the tokens open with the literal Polaris script header? -/
def hasScriptHeader : List Tok → Bool
  | (TokenKind.ID, "script") :: (TokenKind.LEFT, "(") ::
      (TokenKind.ID, "polaris") :: (TokenKind.RIGHT, ")") :: _ => true
  | _ => false

/-- The empty root-less symbol table (the tests call `evaluate` with a
bare `{}`). -/
def emptyTable : SymbolTable := ⟨none, []⟩

/-- Tokenize, parse and evaluate an expression source text against the
empty symbol table. -/
noncomputable def evalString (source : String) : Except Err Value :=
  match parseExpressionTop source with
  | .error e => .error e
  | .ok ast => evaluate emptyTable ast

/-! ## Matcher resolver

Modelled from the spec: the resolver itself is not under `src/` (only
the `Matcher` type and `parse_script` are); spec section 4.5 fixes the
algorithm — duplicate-prefix check first (aborting everything), then
sort by ascending prefix length, then per entity: trailing-digit
`index` binding, accumulate `result @ accumulator` over matching
prefixes, direct expression last. -/

/-- An entity as the host presents it: a reference string and an
optional directly-attached expression text. -/
structure Entity where
  ref : String
  expr : Option String

/-- The set of prefixes bound by two or more matchers, each listed
once. -/
def duplicatedPrefixes (ms : List Matcher) : List String :=
  let ps := ms.map (fun m => m.pre)
  (ps.filter (fun p => decide (2 ≤ ps.count p))).dedup

/-- Stable insertion by ascending prefix length. -/
def insertByLen (m : Matcher) : List Matcher → List Matcher
  | [] => [m]
  | x :: xs =>
    if x.pre.length ≤ m.pre.length then x :: insertByLen m xs
    else m :: x :: xs

/-- Modelled from the spec: sort matchers by ascending prefix length,
deterministically and stably (section 4.5 step 2). -/
def sortMatchers (ms : List Matcher) : List Matcher :=
  ms.foldr insertByLen []

/-- Modelled from the spec: the `index` value of an entity — the
maximal trailing run of digits of its reference string; the empty run
is given the deterministic default 0 (section 4.5 step 3 and the
section 9 open question). -/
def entityIndex (ref : String) : ℚ :=
  ((digitsVal ((ref.toList.reverse.takeWhile Char.isDigit).reverse) : ℕ) : ℚ)

/-- The global symbol table.  Modelled from the spec: the root scope
binding the seven built-ins (section 4.3); the construction code is
not under `src/`. -/
def globalTable : SymbolTable :=
  ⟨none, [("deg", .Function .deg), ("grad", .Function .grad),
          ("rad", .Function .rad), ("turn", .Function .turn),
          ("inch", .Function .inch), ("mil", .Function .mil),
          ("mm", .Function .mm)]⟩

/-- Compose an evaluation result into the accumulator with the `@`
semantics (`accumulator = result @ accumulator`); a numeric result is
the `@`-on-a-float `TypeError`. -/
noncomputable def composeVal : Value → Transform → Except Err Transform
  | .pose p, acc => .ok (Transform.matmul p acc)
  | .num _, _ => .error (.typeError "matmul on number")

/-- Fold the (sorted) matchers over one entity: every matcher whose
prefix is a literal prefix of the reference contributes, earlier
matches first. -/
noncomputable def applyMatchers (tbl : SymbolTable) (ref : String) :
    List Matcher → Transform → Except Err Transform
  | [], acc => .ok acc
  | m :: ms, acc =>
    if m.pre.isPrefixOf ref then
      match evaluate tbl m.expression with
      | .error e => .error e
      | .ok v =>
        match composeVal v acc with
        | .error e => .error e
        | .ok acc' => applyMatchers tbl ref ms acc'
    else applyMatchers tbl ref ms acc

/-- Resolve one entity: transient child scope binding `index`, matcher
accumulation from the identity, then the directly-attached expression
(parsed and evaluated in the global scope) composed last. -/
noncomputable def resolveEntity (sorted : List Matcher) (e : Entity) :
    Except Err (String × Transform) :=
  let tbl : SymbolTable :=
    ⟨some globalTable, [("index", .Variable (.num (entityIndex e.ref)))]⟩
  match applyMatchers tbl e.ref sorted Transform.identity with
  | .error err => .error err
  | .ok t =>
    match e.expr with
    | none => .ok (e.ref, t)
    | some src =>
      match parseExpressionTop src with
      | .error err => .error err
      | .ok ast =>
        match evaluate globalTable ast with
        | .error err => .error err
        | .ok v =>
          match composeVal v t with
          | .error err => .error err
          | .ok t' => .ok (e.ref, t')

/-- Modelled from the spec: `resolve` (section 4.5 / section 6) over an
already-extracted matcher sequence — duplicate check before anything
else; on duplicates the whole resolution fails with the full set of
duplicated prefixes and no entity is touched. -/
noncomputable def resolve (matchers : List Matcher) (entities : List Entity) :
    Except Err (List (String × Transform)) :=
  if (duplicatedPrefixes matchers).isEmpty then
    entities.mapM (resolveEntity (sortMatchers matchers))
  else .error (.duplicatePrefixError (duplicatedPrefixes matchers))

/-! ## The old tokenizer (src/polaris_action.py `tokenize`)

It shares the scan (minus `@`/`:`) but post-processes each match:
NUMBER lexemes are converted with `float` on the spot (a `ValueError`
aborts the enumeration), WHITESPACE matches are not yielded at all,
every other match is yielded as (kind, lexeme). -/

/-- A token value as yielded by the old tokenizer: converted number or
raw lexeme. -/
inductive PAValue where
  | num (q : ℚ)
  | str (s : String)
  deriving DecidableEq, Repr

/-- The per-match post-processing of `src/polaris_action.py`
`tokenize` applied to the raw scan (the Python `match m.lastgroup`:
`case NUMBER` converts, `case WHITESPACE` skips, `case _` passes
through). -/
def paConvert : List Tok → Except Err (List (TokenKind × PAValue))
  | [] => .ok []
  | (TokenKind.NUMBER, v) :: rest =>
    (match pyFloatOpt v with
     | some q =>
       match paConvert rest with
       | .ok ts => .ok ((TokenKind.NUMBER, PAValue.num q) :: ts)
       | .error e => .error e
     | none => .error (.valueError v))
  | (TokenKind.WHITESPACE, _) :: rest => paConvert rest
  | (k, v) :: rest =>
    (match paConvert rest with
     | .ok ts => .ok ((k, PAValue.str v) :: ts)
     | .error e => .error e)

/-- `tokenize(source)` of `src/polaris_action.py` (whole-stream form:
the Python generator raises lazily, here the first `ValueError` fails
the enumeration). -/
def paTokenize (source : String) : Except Err (List (TokenKind × PAValue)) :=
  paConvert (scanList false false source.toList.length source.toList)

end Polaris

namespace Polaris

/-! ## Claim theorems (transform algebra) -/

/-- C1: for all Transforms `a` and `b`, `a @ b` is
`{x: b.x + cos(b.theta)*a.x - sin(b.theta)*a.y,
  y: b.y + sin(b.theta)*a.x + cos(b.theta)*a.y,
  theta: b.theta + a.theta}` ("b happens first, then a"); in particular
`from_translation(10,5) @ from_rotation(pi/2)` yields
`x = -5, y = 10, theta = pi/2` exactly. -/
theorem matmul_formula_and_example :
    (∀ a b : Transform,
      Transform.matmul a b =
        ⟨b.x + Real.cos b.theta * a.x - Real.sin b.theta * a.y,
         b.y + Real.sin b.theta * a.x + Real.cos b.theta * a.y,
         b.theta + a.theta⟩)
    ∧ Transform.matmul (Transform.from_translation 10 5)
        (Transform.from_rotation (Real.pi / 2)) =
        ⟨-5, 10, Real.pi / 2⟩ := by
  constructor
  · intro a b
    rfl
  · simp [Transform.matmul, Transform.from_translation, Transform.from_rotation,
      Real.sin_pi_div_two, Real.cos_pi_div_two, Transform.mk.injEq]

/-- C9: `compose(t, identity) == t` and `compose(identity, t) == t`
exactly (component-wise), with `identity = {0,0,0}` and `compose(a,b)`
the `@` operator with `b` as the right operand. -/
theorem matmul_identity_laws (t : Transform) :
    Transform.matmul t Transform.identity = t
    ∧ Transform.matmul Transform.identity t = t := by
  cases t with
  | mk x y theta =>
    constructor <;>
      simp [Transform.matmul, Transform.identity, Transform.mk.injEq,
        Real.sin_zero, Real.cos_zero]

/-- C10: the composition `Transform(x1,y1,t1) @ Transform(x2,y2,t2)` of
`src/transform.py` equals, component-wise and exactly,
`Transform(x2,y2,t2) * Transform(x1,y1,t1)` of `src/polaris_action.py`:
the two historical implementations realize the same operation with
operand order swapped. -/
theorem matmul_eq_pa_mul_swapped (x1 y1 t1 x2 y2 t2 : ℝ) :
    (Transform.matmul ⟨x1, y1, t1⟩ ⟨x2, y2, t2⟩).x
        = (PATransform.mul ⟨x2, y2, t2⟩ ⟨x1, y1, t1⟩).x
    ∧ (Transform.matmul ⟨x1, y1, t1⟩ ⟨x2, y2, t2⟩).y
        = (PATransform.mul ⟨x2, y2, t2⟩ ⟨x1, y1, t1⟩).y
    ∧ (Transform.matmul ⟨x1, y1, t1⟩ ⟨x2, y2, t2⟩).theta
        = (PATransform.mul ⟨x2, y2, t2⟩ ⟨x1, y1, t1⟩).theta :=
  ⟨rfl, rfl, rfl⟩

end Polaris

namespace Polaris

/-! ## Lexical lemmas: regex NUMBER lexemes versus CPython `float` -/

/-- Dropping the head preserves the every-underscore-then-digit
condition. -/
theorem underscoresOk_tail {c : Char} {cs : List Char}
    (h : underscoresOk (c :: cs) = true) : underscoresOk cs = true := by
  simp [underscoresOk, Bool.and_eq_true] at h
  exact h.2

/-- `dropWhile` preserves the every-underscore-then-digit condition. -/
theorem underscoresOk_dropWhile (p : Char → Bool) :
    ∀ cs : List Char, underscoresOk cs = true →
      underscoresOk (cs.dropWhile p) = true
  | [], h => h
  | c :: cs, h => by
    rw [List.dropWhile_cons]
    by_cases hp : p c = true
    · rw [if_pos hp]
      exact underscoresOk_dropWhile p cs (underscoresOk_tail h)
    · rw [if_neg hp]
      exact h

/-- On a run whose underscores all precede digits, the PEP-515
digitpart consumes exactly the regex run `[\d_]*`. -/
theorem pyDigitsRest_eq_dropWhile :
    ∀ cs : List Char, underscoresOk cs = true →
      pyDigitsRest cs = cs.dropWhile digitOrUnderscore
  | [], _ => rfl
  | [c], h => by
    by_cases hd : c.isDigit = true
    · rw [pyDigitsRest, if_pos hd, List.dropWhile_cons,
        if_pos (by simp [digitOrUnderscore, hd])]
      rfl
    · have hu : ¬ c = '_' := by
        intro he
        subst he
        simp [underscoresOk] at h
      rw [pyDigitsRest, if_neg hd, List.dropWhile_cons,
        if_neg (by simp [digitOrUnderscore, hd, hu])]
  | c :: d :: cs, h => by
    by_cases hd : c.isDigit = true
    · rw [pyDigitsRest, if_pos hd, List.dropWhile_cons,
        if_pos (by simp [digitOrUnderscore, hd])]
      exact pyDigitsRest_eq_dropWhile (d :: cs) (underscoresOk_tail h)
    · by_cases hu : c = '_'
      · subst hu
        have hb : (d.isDigit && underscoresOk (d :: cs)) = true := h
        have h1 : d.isDigit = true := ((Bool.and_eq_true _ _).mp hb).1
        rw [pyDigitsRest, if_neg hd, if_pos (by simp [h1]),
          List.dropWhile_cons, if_pos (by simp [digitOrUnderscore]),
          List.dropWhile_cons, if_pos (by simp [digitOrUnderscore, h1])]
        exact pyDigitsRest_eq_dropWhile cs
          (underscoresOk_tail (underscoresOk_tail h))
      · rw [pyDigitsRest, if_neg hd,
          if_neg (by simp [hu]), List.dropWhile_cons,
          if_neg (by simp [digitOrUnderscore, hd, hu])]

end Polaris

namespace Polaris

/-- If the regex exponent stage leaves nothing, the Python exponent
stage leaves nothing either (on an underscore-disciplined stream). -/
theorem exp_agree : ∀ cs : List Char, underscoresOk cs = true →
    (numExp cs).2 = [] → pyExp cs = [] := by
  intro cs hu hn
  rcases cs with _ | ⟨e, _ | ⟨c, _ | ⟨d, rest⟩⟩⟩
  · rfl
  · simp [numExp] at hn
  · by_cases hc : (e = 'e' ∨ e = 'E') ∧ c.isDigit = true
    · obtain ⟨he, hd2⟩ := hc
      rcases he with he | he <;> subst he <;>
        simp [pyExp, hd2, pyDigitsRest]
    · simp [numExp, hc] at hn
  · by_cases hp : c = '+'
    · subst hp
      by_cases hc : (e = 'e' ∨ e = 'E') ∧ d.isDigit = true
      · obtain ⟨he, hd2⟩ := hc
        have hu3 : underscoresOk rest = true :=
          underscoresOk_tail (underscoresOk_tail (underscoresOk_tail hu))
        rcases he with he | he <;> subst he <;>
          simp [numExp, splitDigits, hd2] at hn <;>
          simp [pyExp, hd2, pyDigitsRest_eq_dropWhile rest hu3] <;>
          exact hn
      · simp [numExp, hc] at hn
    · by_cases hm : c = '-'
      · subst hm
        by_cases hc : (e = 'e' ∨ e = 'E') ∧ d.isDigit = true
        · obtain ⟨he, hd2⟩ := hc
          have hu3 : underscoresOk rest = true :=
            underscoresOk_tail (underscoresOk_tail (underscoresOk_tail hu))
          rcases he with he | he <;> subst he <;>
            simp [numExp, splitDigits, hd2] at hn <;>
            simp [pyExp, hd2, pyDigitsRest_eq_dropWhile rest hu3] <;>
            exact hn
        · simp [numExp, hc] at hn
      · by_cases hc : (e = 'e' ∨ e = 'E') ∧ c.isDigit = true
        · obtain ⟨he, hd2⟩ := hc
          have hu2 : underscoresOk (d :: rest) = true :=
            underscoresOk_tail (underscoresOk_tail hu)
          rcases he with he | he <;> subst he <;>
            simp [numExp, splitDigits, hp, hm, hd2] at hn <;>
            simp [pyExp, hp, hm, hd2,
              pyDigitsRest_eq_dropWhile (d :: rest) hu2, hn.1] <;>
            exact hn.2
        · simp [numExp, hc, hp, hm] at hn

end Polaris

namespace Polaris

/-- A head character that is not `e`/`E` never starts an exponent: the
regex exponent group consumes nothing. -/
theorem numExp_snd_of_ne (e : Char) (cs : List Char)
    (he1 : ¬ e = 'e') (he2 : ¬ e = 'E') : (numExp (e :: cs)).2 = e :: cs := by
  rcases cs with _ | ⟨x, _ | ⟨y, r⟩⟩
  · rfl
  · simp [numExp, he1, he2]
  · by_cases hx1 : x = '+'
    · subst hx1
      simp [numExp, he1, he2]
    · by_cases hx2 : x = '-'
      · subst hx2
        simp [numExp, he1, he2]
      · simp [numExp, he1, he2, hx1, hx2]

/-- If the regex fraction-then-exponent stages leave nothing, the
Python fraction-then-exponent stages leave nothing either. -/
theorem frac_exp_agree : ∀ cs : List Char, underscoresOk cs = true →
    (numExp (numFrac cs).2).2 = [] → pyExp (pyFrac cs) = [] := by
  intro cs hu hn
  rcases cs with _ | ⟨c0, _ | ⟨c1, rest⟩⟩
  · rfl
  · simp [numFrac, numExp] at hn
  · by_cases hdot : c0 = '.'
    · subst hdot
      by_cases hd : c1.isDigit = true
      · have hu2 : underscoresOk rest = true :=
          underscoresOk_tail (underscoresOk_tail hu)
        simp [numFrac, splitDigits, hd] at hn
        simp [pyFrac, hd, pyDigitsRest_eq_dropWhile rest hu2]
        exact exp_agree _ (underscoresOk_dropWhile _ rest hu2) hn
      · simp [numFrac, hd] at hn
        rw [numExp_snd_of_ne '.' _ (by decide) (by decide)] at hn
        simp at hn
    · simp [numFrac, hdot] at hn
      simp [pyFrac, hdot]
      exact exp_agree _ hu hn

end Polaris

namespace Polaris

/-- The rest component of `numTail` is the exponent stage applied after
the fraction stage applied after the digit run. -/
theorem numTail_snd (cs : List Char) :
    (numTail cs).2 =
      (numExp ((numFrac (cs.dropWhile digitOrUnderscore)).2)).2 := rfl

/-- C8 (corrected): the claim fails on the code (see the
counterexample); what holds is — for every lexeme matched by the NUMBER
token regex in which every underscore is immediately followed by a
digit, conversion with CPython `float` succeeds; in particular
`"1_000.5e2"` converts to `100050.0`. -/
theorem number_literal_conversion_amended :
    (∀ s : String, numberFullMatch s = true →
      underscoresOk s.toList = true → pyFloatAccepts s = true)
    ∧ pyFloatOpt "1_000.5e2" = some 100050 := by
  constructor
  · intro s hm hu
    unfold numberFullMatch at hm
    unfold pyFloatAccepts
    rcases hls : s.toList with _ | ⟨c, rest⟩
    · rw [hls] at hm
      simp at hm
    · rw [hls] at hm hu
      simp only [Bool.and_eq_true] at hm
      obtain ⟨hc, htail⟩ := hm
      have htail' : (numTail rest).2 = [] := by
        simpa [List.isEmpty_iff] using htail
      rw [numTail_snd] at htail'
      have hu1 : underscoresOk rest = true := underscoresOk_tail hu
      simp only [hc, Bool.true_and]
      rw [pyDigitsRest_eq_dropWhile rest hu1]
      have := frac_exp_agree (rest.dropWhile digitOrUnderscore)
        (underscoresOk_dropWhile _ rest hu1) htail'
      simp [this]
  · decide

/-- C8 (counterexample): the lexeme `"1_"` is matched in full by the
NUMBER token regex, yet CPython `float("1_")` raises `ValueError`
(PEP 515 forbids a trailing underscore), so the parser's
`Constant(float(value))` conversion fails on it. -/
theorem number_literal_conversion_counterexample :
    numberFullMatch "1_" = true
    ∧ pyFloatOpt "1_" = none
    ∧ tokenize "1_" = [(TokenKind.NUMBER, "1_")]
    ∧ parseExpressionTop "1_" = .error (.valueError "1_") :=
  ⟨by decide, by decide, by decide, by rfl⟩

/-- C8 (witness): the amended theorem applied at the concrete lexeme
`"1_000.5e2"`. -/
theorem number_literal_conversion_amended_witness :
    numberFullMatch "1_000.5e2" = true
    ∧ underscoresOk "1_000.5e2".toList = true
    ∧ pyFloatAccepts "1_000.5e2" = true :=
  ⟨by decide, by decide,
    number_literal_conversion_amended.1 "1_000.5e2" (by decide) (by decide)⟩

end Polaris

namespace Polaris

/-- No WHITESPACE token survives the old tokenizer's post-processing,
whatever the raw scan produced. -/
theorem paConvert_no_whitespace :
    ∀ (raw : List Tok) (ts : List (TokenKind × PAValue)),
      paConvert raw = .ok ts → ∀ t ∈ ts, t.1 ≠ TokenKind.WHITESPACE := by
  intro raw
  induction raw with
  | nil =>
    intro ts h
    simp only [paConvert, Except.ok.injEq] at h
    subst h
    simp
  | cons kv rest ih =>
    intro ts h
    obtain ⟨k, v⟩ := kv
    cases k
    case NUMBER =>
      simp only [paConvert] at h
      rcases hc : pyFloatOpt v with _ | q <;> rw [hc] at h
      · simp at h
      · rcases hr : paConvert rest with e | ts' <;> rw [hr] at h
        · simp at h
        · simp only [Except.ok.injEq] at h
          subst h
          rw [List.forall_mem_cons]
          exact ⟨by simp, ih ts' hr⟩
    case WHITESPACE =>
      simp only [paConvert] at h
      exact ih ts h
    all_goals simp only [paConvert] at h
    all_goals rcases hr : paConvert rest with e | ts' <;> rw [hr] at h
    all_goals simp only [Except.ok.injEq, reduceCtorEq] at h
    all_goals
      (subst h
       rw [List.forall_mem_cons]
       exact ⟨by simp, ih ts' hr⟩)

/-- C3: WHITESPACE tokens are dropped before the Parser ever sees
them — the filtered stream feeding the evolved Parser contains no
WHITESPACE token, and the old tokenizer never yields one. -/
theorem whitespace_dropped_before_parsing :
    (∀ source : String, ∀ t ∈ parserTokens source,
      t.1 ≠ TokenKind.WHITESPACE)
    ∧ (∀ (source : String) (ts : List (TokenKind × PAValue)),
        paTokenize source = .ok ts → ∀ t ∈ ts,
          t.1 ≠ TokenKind.WHITESPACE) := by
  constructor
  · intro source t ht
    have := (List.mem_filter.mp ht).2
    exact of_decide_eq_true this
  · intro source ts h t ht
    exact paConvert_no_whitespace _ ts h t ht

/-- C3 (witness): the theorem applied to concrete sources containing
whitespace. -/
theorem whitespace_dropped_before_parsing_witness :
    paTokenize "1 x" = .ok
      [(TokenKind.NUMBER, PAValue.num 1), (TokenKind.ID, PAValue.str "x")]
    ∧ (TokenKind.NUMBER, PAValue.num 1).1 ≠ TokenKind.WHITESPACE
    ∧ (TokenKind.ID, "y") ∈ parserTokens "1 y"
    ∧ (TokenKind.ID, ("y" : String)).1 ≠ TokenKind.WHITESPACE :=
  ⟨by rfl,
   whitespace_dropped_before_parsing.2 "1 x"
     [(TokenKind.NUMBER, PAValue.num 1), (TokenKind.ID, PAValue.str "x")]
     (by rfl) (TokenKind.NUMBER, PAValue.num 1) (by simp),
   by decide,
   whitespace_dropped_before_parsing.1 "1 y" (TokenKind.ID, "y") (by decide)⟩

/-- C7: a script text whose initial tokens are not exactly
`ID("script") LEFT ID("polaris") RIGHT` makes `parse_script` return an
empty matcher sequence with no error. -/
theorem parse_script_no_header_silent (source : String)
    (h : hasScriptHeader (parserTokens source) = false) :
    parseScriptStr source = .ok [] := by
  unfold parseScriptStr parseScriptToks
  split
  · rename_i rest heq
    rw [heq] at h
    simp [hasScriptHeader] at h
  · rfl

/-- C7 (witness): the theorem applied to the concrete non-script text
`"hello"`. -/
theorem parse_script_no_header_silent_witness :
    hasScriptHeader (parserTokens "hello") = false
    ∧ parseScriptStr "hello" = .ok [] :=
  ⟨by decide, parse_script_no_header_silent "hello" (by decide)⟩

end Polaris

namespace Polaris

/-- C2: tokenizing, parsing (via `parse_expression`) and evaluating
`"2 + 3 * 4"` yields 14, `"(2 + 3) * 4"` yields 20, and `"2 - 3 - 4"`
yields -5: multiplication binds tighter than addition and subtraction
is left-associative. -/
theorem parse_eval_precedence_examples :
    evalString "2 + 3 * 4" = .ok (.num 14)
    ∧ evalString "(2 + 3) * 4" = .ok (.num 20)
    ∧ evalString "2 - 3 - 4" = .ok (.num (-5)) := by
  refine ⟨?_, ?_, ?_⟩
  · have hp : parseExpressionTop "2 + 3 * 4" =
        .ok (.BinaryOp (.Constant 2) "+"
          (.BinaryOp (.Constant 3) "*" (.Constant 4))) := by rfl
    unfold evalString
    rw [hp]
    norm_num [evaluate, applyBinOp]
  · have hp : parseExpressionTop "(2 + 3) * 4" =
        .ok (.BinaryOp (.BinaryOp (.Constant 2) "+" (.Constant 3)) "*"
          (.Constant 4)) := by rfl
    unfold evalString
    rw [hp]
    norm_num [evaluate, applyBinOp]
  · have hp : parseExpressionTop "2 - 3 - 4" =
        .ok (.BinaryOp (.BinaryOp (.Constant 2) "-" (.Constant 3)) "-"
          (.Constant 4)) := by rfl
    unfold evalString
    rw [hp]
    norm_num [evaluate, applyBinOp]

/-- C4: `VariableRead(name)` evaluation — the chained lookup searches
the local bindings first, then the parent chain; a found `Variable`
binding's value is returned; a name absent from the whole chain is the
unresolved-identifier failure. -/
theorem variable_read_lookup (st : SymbolTable) (name : String) :
    (∀ b, List.lookup name st.table = some b → st.lookup name = some b)
    ∧ (List.lookup name st.table = none →
        st.lookup name =
          (match st.scope with
           | some p => p.lookup name
           | none => none))
    ∧ (st.lookup name = none →
        evaluate st (.VariableRead name) = .error (.unboundName name))
    ∧ (∀ v, st.lookup name = some (.Variable v) →
        evaluate st (.VariableRead name) = .ok v) := by
  obtain ⟨scope, table⟩ := st
  refine ⟨?_, ?_, ?_, ?_⟩
  · intro b hb
    simp only [SymbolTable.table] at hb
    rcases scope with _ | p <;> simp only [SymbolTable.lookup, hb]
  · intro hb
    simp only [SymbolTable.table] at hb
    rcases scope with _ | p <;>
      simp only [SymbolTable.lookup, SymbolTable.scope, hb]
  · intro h
    simp [evaluate, h]
  · intro v h
    simp [evaluate, h]

/-- C4 (witness): the theorem applied to a two-level chain — the child
scope finds `x` through its parent, and an unbound name fails. -/
theorem variable_read_lookup_witness :
    evaluate ⟨some ⟨none, [("x", Statement.Variable (Value.num 4))]⟩, []⟩
        (.VariableRead "x") = .ok (Value.num 4)
    ∧ evaluate (⟨none, []⟩ : SymbolTable) (.VariableRead "zz")
        = .error (.unboundName "zz") :=
  ⟨(variable_read_lookup
      ⟨some ⟨none, [("x", Statement.Variable (Value.num 4))]⟩, []⟩
      "x").2.2.2 (Value.num 4) rfl,
   (variable_read_lookup ⟨none, []⟩ "zz").2.2.1 rfl⟩

/-- C5: `FunctionCall(name, args)` hands the bound native callable the
symbol table together with the argument ASTs themselves — unevaluated;
the general evaluator path performs no evaluation of `args` before the
callee runs. -/
theorem function_call_defers_args (st : SymbolTable) (name : String)
    (args : List Expr) (f : NativeFn)
    (h : st.lookup name = some (.Function f)) :
    evaluate st (.FunctionCall name args) = applyNative f st args := by
  simp [evaluate, h]

/-- C5 (witness): the theorem applied to the test callable
`lambda s, a: evaluate(s, a)` bound as `f`, at argument `Constant 7`;
the callee itself then produces 7.  Passing an argument that does not
evaluate (an unbound name) still reaches the callee untouched. -/
theorem function_call_defers_args_witness :
    evaluate ⟨none, [("f", Statement.Function NativeFn.evalArg)]⟩
        (.FunctionCall "f" [.Constant 7])
      = applyNative NativeFn.evalArg
          ⟨none, [("f", Statement.Function NativeFn.evalArg)]⟩ [.Constant 7]
    ∧ applyNative NativeFn.evalArg
        ⟨none, [("f", Statement.Function NativeFn.evalArg)]⟩ [.Constant 7]
      = .ok (.num 7) :=
  ⟨function_call_defers_args
     ⟨none, [("f", Statement.Function NativeFn.evalArg)]⟩ "f"
     [.Constant 7] NativeFn.evalArg rfl,
   by simp [applyNative, evaluate]⟩

end Polaris

namespace Polaris

/-- C6: whenever two or more matchers share a prefix, `resolve` fails
with the duplicate-prefix error whose payload enumerates exactly the
duplicated prefixes, and no entity mapping is produced (the check
precedes all evaluation). -/
theorem duplicate_prefixes_abort (ms : List Matcher) (es : List Entity)
    (h : ∃ p, 2 ≤ (ms.map (fun m => m.pre)).count p) :
    resolve ms es = .error (.duplicatePrefixError (duplicatedPrefixes ms))
    ∧ ∀ p, p ∈ duplicatedPrefixes ms ↔
        2 ≤ (ms.map (fun m => m.pre)).count p := by
  have hmem : ∀ p, p ∈ duplicatedPrefixes ms ↔
      2 ≤ (ms.map (fun m => m.pre)).count p := by
    intro p
    simp only [duplicatedPrefixes, List.mem_dedup, List.mem_filter,
      decide_eq_true_eq]
    constructor
    · exact fun hx => hx.2
    · intro hc
      refine ⟨?_, hc⟩
      have hpos : 0 < (ms.map (fun m => m.pre)).count p := by omega
      exact List.count_pos_iff.mp hpos
  constructor
  · obtain ⟨p, hp⟩ := h
    have hne : duplicatedPrefixes ms ≠ [] := by
      intro hnil
      have hx := (hmem p).mpr hp
      rw [hnil] at hx
      simp at hx
    unfold resolve
    rw [if_neg (by simpa [List.isEmpty_iff] using hne)]
  · exact hmem

/-- C6 (witness): the theorem applied to two matchers both bound to
prefix `R` and one entity; the error payload is exactly `["R"]`. -/
theorem duplicate_prefixes_abort_witness :
    resolve [⟨"R", .Constant 1⟩, ⟨"R", .Constant 2⟩] [⟨"R1", none⟩]
      = .error (.duplicatePrefixError
          (duplicatedPrefixes [⟨"R", .Constant 1⟩, ⟨"R", .Constant 2⟩]))
    ∧ duplicatedPrefixes [⟨"R", .Constant 1⟩, ⟨"R", .Constant 2⟩] = ["R"] :=
  ⟨(duplicate_prefixes_abort
      [⟨"R", Expr.Constant 1⟩, ⟨"R", Expr.Constant 2⟩] [⟨"R1", none⟩]
      ⟨"R", by decide⟩).1,
   by decide⟩

end Polaris
